import Mathlib

/-
Verification of kiwi/datatypes.py: the type-conversion registry, the
locale-aware number converters and the monetary formatter format_price.

The Python code is shallowly embedded:
  * Python strings are Lean String / List Char;
  * Python floats are modelled as exact rationals (ℚ);
  * Python exceptions (ValidationError) become Except String results;
  * the host locale state (locale.localeconv()) becomes an explicit
    locale-snapshot structure passed to the functions that read it.
-/

deriving instance DecidableEq for Except

/-! ## Python string primitives

Models of the Python `str` operations used by datatypes.py
(`count`, `find`/`index`, `replace`, slicing with negative bounds). -/

/-- `leadsWith p s` is true when the character list `p` is an initial
segment of `s` (Python `s.startswith(p)` at an offset). -/
def leadsWith : List Char → List Char → Bool
  | [], _ => true
  | _ :: _, [] => false
  | a :: p, b :: s => a == b && leadsWith p s

theorem leadsWith_length {p s : List Char} (h : leadsWith p s = true) :
    p.length ≤ s.length := by
  induction p generalizing s with
  | nil => simp
  | cons a p ih =>
    cases s with
    | nil => simp [leadsWith] at h
    | cons b t =>
      simp only [leadsWith, Bool.and_eq_true] at h
      simpa using ih h.2

/-
The recursions below consume at least one character of the scanned string
per step, so they are written structurally on an explicit counter
instantiated with the string length (which therefore never runs out);
this keeps every definition evaluable inside the kernel.
-/

/-- Scanning loop of Python `value.count(sub)` for a nonempty pattern
`c :: cs`: non-overlapping occurrences, counted from the left. -/
def countOccAux (c : Char) (cs : List Char) : Nat → List Char → Nat
  | 0, _ => 0
  | _ + 1, [] => 0
  | fuel + 1, b :: t =>
    if leadsWith (c :: cs) (b :: t)
    then 1 + countOccAux c cs fuel ((b :: t).drop (c :: cs).length)
    else countOccAux c cs fuel t

/-- Python `value.count(sub)`: number of non-overlapping occurrences,
scanning from the left.  Python's `count` of the empty string returns
`len(value) + 1`. -/
def countOcc (p s : List Char) : Nat :=
  match p with
  | [] => s.length + 1
  | c :: cs => countOccAux c cs s.length s

/-- All indices at which the pattern occurs in `s` (in increasing order).
Python's `find(sub, start)` called repeatedly with `start = pos + 1` — the
while loop of FloatConverter.from_string — enumerates exactly these
indices, overlapping occurrences included. -/
def occIdxs (p s : List Char) : List Nat :=
  (List.range (s.length + 1)).filter (fun i => leadsWith p (s.drop i))

/-- Python `value.index(sub)` / `value.find(sub)`: index of the first
occurrence, if any. -/
def firstOcc (p s : List Char) : Option Nat :=
  (occIdxs p s).head?

theorem mem_occIdxs {p s : List Char} {i : Nat} :
    i ∈ occIdxs p s ↔ i ≤ s.length ∧ leadsWith p (s.drop i) = true := by
  simp only [occIdxs, List.mem_filter, List.mem_range]
  constructor <;> intro h <;> exact ⟨by omega, h.2⟩

/-- Helper for `replaceAll` on a nonempty pattern `c :: cs`:
non-overlapping left-to-right replacement, as Python `str.replace`. -/
def replaceAux (c : Char) (cs r : List Char) : Nat → List Char → List Char
  | 0, s => s
  | _ + 1, [] => []
  | fuel + 1, a :: s =>
    if leadsWith (c :: cs) (a :: s)
    then r ++ replaceAux c cs r fuel ((a :: s).drop (c :: cs).length)
    else a :: replaceAux c cs r fuel s

/-- Python `value.replace(p, r)`.  For an empty pattern Python inserts the
replacement at every character boundary (`"ab".replace("", "-") = "-a-b-"`);
the separators handled here are never empty, the thousands separator being
defaulted to "." first. -/
def replaceAll (p r s : List Char) : List Char :=
  match p with
  | [] => r ++ (s.map (fun ch => [ch] ++ r)).flatten
  | c :: cs => replaceAux c cs r s.length s

/-- Python slice `l[-g:]` (note `-0 == 0`, so `g = 0` yields the whole
list, exactly as in Python where `l[-0:] = l[0:] = l`). -/
def chunkOf (g : Nat) (l : List Char) : List Char :=
  if g = 0 then l else l.drop (l.length - g)

/-- Python slice `l[:-g]` (for `g = 0` this is `l[:0] = []`). -/
def restOf (g : Nat) (l : List Char) : List Char :=
  if g = 0 then [] else l.take (l.length - g)

theorem restOf_append_chunkOf (g : Nat) (l : List Char) :
    restOf g l ++ chunkOf g l = l := by
  unfold restOf chunkOf
  by_cases h : g = 0 <;> simp [h]

theorem restOf_length_lt (g : Nat) {l : List Char} (h : l ≠ []) :
    (restOf g l).length < l.length := by
  have hl : 0 < l.length := List.length_pos.mpr h
  unfold restOf
  by_cases hg : g = 0 <;> simp [hg, List.length_take] <;> omega

/-! ## Decimal digit rendering and parsing

Models of Python `str(n)` for a nonnegative integer and of the digit
parsing done by the builtins `int()` and `float()`. -/

/-- The character for a single decimal digit. -/
def digChar (d : Nat) : Char := Char.ofNat (48 + d)

/-- Numeric value of a digit character. -/
def digVal (c : Char) : Nat := c.toNat - 48

theorem digChar_spec : ∀ d < 10, digVal (digChar d) = d ∧
    (digChar d).isDigit = true := by decide

/-- Digit-production loop of Python `str(n)`: the counter only bounds the
recursion depth (any value above `n` gives the same answer, see
`natReprAux_fuel`). -/
def natReprAux : Nat → Nat → List Char
  | 0, _ => []
  | fuel + 1, n =>
    if n < 10 then [digChar n]
    else natReprAux fuel (n / 10) ++ [digChar (n % 10)]

/-- Python `str(n)` for a nonnegative integer `n`. -/
def natRepr (n : Nat) : List Char := natReprAux (n + 1) n

theorem natReprAux_fuel :
    ∀ (f1 f2 n : Nat), n < f1 → n < f2 →
      natReprAux f1 n = natReprAux f2 n := by
  intro f1
  induction f1 with
  | zero => intro f2 n h1 _; omega
  | succ f1 ih =>
    intro f2 n h1 h2
    cases f2 with
    | zero => omega
    | succ f2 =>
      rw [natReprAux, natReprAux]
      by_cases h : n < 10
      · simp [h]
      · rw [if_neg h, if_neg h]
        exact congrArg (fun xs => xs ++ [digChar (n % 10)])
          (ih f2 (n / 10) (by omega) (by omega))

/-- The self-contained unfolding of `natRepr`. -/
theorem natRepr_unfold (n : Nat) :
    natRepr n = if n < 10 then [digChar n]
      else natRepr (n / 10) ++ [digChar (n % 10)] := by
  show natReprAux (n + 1) n = _
  rw [natReprAux]
  by_cases h : n < 10
  · simp [h]
  · rw [if_neg h, if_neg h, natRepr]
    exact congrArg (fun xs => xs ++ [digChar (n % 10)])
      (natReprAux_fuel n (n / 10 + 1) (n / 10) (by omega) (by omega))

theorem natRepr_ne_nil (n : Nat) : natRepr n ≠ [] := by
  rw [natRepr_unfold]
  by_cases h : n < 10 <;> simp [h]

theorem natRepr_all_digits (n : Nat) : (natRepr n).all Char.isDigit = true := by
  induction n using Nat.strong_induction_on with
  | _ n ih =>
    rw [natRepr_unfold]
    by_cases h : n < 10
    · simpa [h] using (digChar_spec n h).2
    · have h10 : n / 10 < n := by omega
      have hm : n % 10 < 10 := Nat.mod_lt _ (by omega)
      simp [h, List.all_append, ih _ h10, (digChar_spec _ hm).2]

/-- Value of a digit string read left to right. -/
def digitsToNat (l : List Char) : Nat :=
  l.foldl (fun a c => a * 10 + digVal c) 0

theorem digitsToNat_append_digit (xs : List Char) (c : Char) :
    digitsToNat (xs ++ [c]) = digitsToNat xs * 10 + digVal c := by
  simp [digitsToNat, List.foldl_append]

theorem digitsToNat_natRepr (n : Nat) : digitsToNat (natRepr n) = n := by
  induction n using Nat.strong_induction_on with
  | _ n ih =>
    rw [natRepr_unfold]
    by_cases h : n < 10
    · simp [h, digitsToNat, (digChar_spec n h).1]
    · have h10 : n / 10 < n := by omega
      have hm : n % 10 < 10 := Nat.mod_lt _ (by omega)
      simp only [h, if_false, digitsToNat_append_digit, ih _ h10,
        (digChar_spec _ hm).1]
      omega

/-- Nonempty all-digit check followed by the numeric read: the digit
portion of Python `int()` / `float()` parsing. -/
def digitsRead (l : List Char) : Option Nat :=
  if l ≠ [] ∧ l.all Char.isDigit then some (digitsToNat l) else none

theorem digitsRead_natRepr (n : Nat) : digitsRead (natRepr n) = some n := by
  simp [digitsRead, natRepr_ne_nil, natRepr_all_digits, digitsToNat_natRepr]

/-- Python `int(value)` on a string: an optional sign followed by a
nonempty run of decimal digits.  (Surrounding whitespace and underscore
digit separators, which Python also tolerates, are not modelled; the
strings produced by the formatting side never contain them.) -/
def pyInt (s : List Char) : Option Int :=
  match s with
  | [] => none
  | c :: r =>
    if c = '+' then Option.map Int.ofNat (digitsRead r)
    else if c = '-' then Option.map (fun m => -(Int.ofNat m)) (digitsRead r)
    else Option.map Int.ofNat (digitsRead (c :: r))

/-- Python `float(value)` on a string, modelled on plain decimal literals:
`[sign] digits [. digits] [e|E [sign] digits]`, where at least one digit
must be present before or after the decimal point.  (Whitespace,
underscores, `inf` and `nan` are not modelled; the cleaned inputs built by
`FloatConverter.from_string` never contain them.)  The result is the exact
rational value of the literal. -/
def pyFloat (s : List Char) : Option ℚ :=
  let (neg, s1) :=
    match s with
    | c :: r =>
      if c = '-' then (true, r) else if c = '+' then (false, r) else (false, c :: r)
    | [] => (false, ([] : List Char))
  let ip := s1.takeWhile Char.isDigit
  let s2 := s1.dropWhile Char.isDigit
  let (fp, s3) :=
    match s2 with
    | c :: r =>
      if c = '.' then (r.takeWhile Char.isDigit, r.dropWhile Char.isDigit)
      else (([] : List Char), c :: r)
    | [] => (([] : List Char), ([] : List Char))
  let (hasExp, expNeg, ep, s4) :=
    match s3 with
    | c :: r =>
      if c = 'e' ∨ c = 'E' then
        match r with
        | d :: r2 =>
          if d = '-' then (true, true, r2.takeWhile Char.isDigit, r2.dropWhile Char.isDigit)
          else if d = '+' then (true, false, r2.takeWhile Char.isDigit, r2.dropWhile Char.isDigit)
          else (true, false, (d :: r2).takeWhile Char.isDigit, (d :: r2).dropWhile Char.isDigit)
        | [] => (true, false, ([] : List Char), ([] : List Char))
      else (false, false, ([] : List Char), c :: r)
    | [] => (false, false, ([] : List Char), ([] : List Char))
  if s4 = [] ∧ (ip ≠ [] ∨ fp ≠ []) ∧ (hasExp = false ∨ ep ≠ []) then
    let mag : ℚ := (digitsToNat ip : ℚ) + (digitsToNat fp : ℚ) / (10 : ℚ) ^ fp.length
    let mag2 : ℚ :=
      if expNeg then mag / (10 : ℚ) ^ digitsToNat ep else mag * (10 : ℚ) ^ digitsToNat ep
    some (if neg then -mag2 else mag2)
  else none

/-- Python `sep.join(parts)`. -/
def sepJoin (sep : List Char) : List (List Char) → List Char
  | [] => []
  | [x] => x
  | x :: y :: t => x ++ sep ++ sepJoin sep (y :: t)

theorem sepJoin_nil_sep (l : List (List Char)) : sepJoin [] l = l.flatten := by
  induction l with
  | nil => rfl
  | cons x t ih =>
    cases t with
    | nil => simp [sepJoin]
    | cons y t' => simp [sepJoin, ih]

theorem countOccAux_pos :
    ∀ (fuel : Nat) (c : Char) (cs s : List Char) (i : Nat), s.length ≤ fuel →
      i ∈ occIdxs (c :: cs) s → 0 < countOccAux c cs fuel s := by
  intro fuel
  induction fuel with
  | zero =>
    intro c cs s i hf hi
    have hs : s = [] := List.length_eq_zero.mp (by omega)
    subst hs
    rcases mem_occIdxs.mp hi with ⟨hle, hlw⟩
    have : i = 0 := by simpa using hle
    subst this
    simp [leadsWith] at hlw
  | succ fuel ih =>
    intro c cs s i hf hi
    rcases mem_occIdxs.mp hi with ⟨hle, hlw⟩
    cases s with
    | nil =>
      have : i = 0 := by simpa using hle
      subst this
      simp [leadsWith] at hlw
    | cons b t =>
      rw [countOccAux]
      by_cases hb : leadsWith (c :: cs) (b :: t) = true
      · simp [hb]
      · simp only [hb, Bool.false_eq_true, if_false]
        cases i with
        | zero => simp only [List.drop_zero] at hlw; exact absurd hlw hb
        | succ j =>
          exact ih c cs t j (by simpa using hf)
            (mem_occIdxs.mpr ⟨by simpa using hle, by
              simpa [List.drop_succ_cons] using hlw⟩)

/-- A pattern that occurs somewhere in `s` has a positive non-overlapping
occurrence count (Python: `s.count(p) > 0` whenever `s.find(p) != -1`). -/
theorem countOcc_pos_of_mem_occIdxs {p s : List Char} {i : Nat}
    (h : i ∈ occIdxs p s) : 0 < countOcc p s := by
  cases p with
  | nil => simp [countOcc]
  | cons c cs => exact countOccAux_pos s.length c cs s i le_rfl h

/-! ## FloatConverter

Embedding of `FloatConverter.from_string` (src/kiwi/datatypes.py).  The
locale snapshot holds the two entries of `locale.localeconv()` that the
converter reads at construction time. -/

structure LocaleConv where
  thousands_sep : String
  decimal_point : String

namespace FloatConverter

/-- The final, unconditional part of `from_string`: remove every
thousands-separator occurrence, replace the decimal separator by ".",
and hand the result to `float(...)`, turning a parse failure into the
ValidationError "This field requires a number". -/
def cleanAndParse (th_sep dec_sep : String) (value : String) : Except String ℚ :=
  let v1 := replaceAll th_sep.data [] value.data
  let v2 := replaceAll dec_sep.data ['.'] v1
  match pyFloat v2 with
  | some q => Except.ok q
  | none => Except.error "This field requires a number"

/-- `FloatConverter.from_string` from src/kiwi/datatypes.py.  An empty
locale thousands separator is defaulted to "." (the pt_BR / es_ES hack in
the source).  The separator-order while loop of the source is rendered by
the `List.all` over `occIdxs`, which enumerates exactly the indices the
loop visits via `value.find(th_sep, th_pos + 1)`. -/
def from_string (conv : LocaleConv) (value : String) : Except String ℚ :=
  let dec_sep := conv.decimal_point
  let th_sep := if conv.thousands_sep = "" then "." else conv.thousands_sep
  let th_sep_count := countOcc th_sep.data value.data
  let dec_sep_count := countOcc dec_sep.data value.data
  let parsed := cleanAndParse th_sep dec_sep value
  if th_sep_count > 0 ∨ dec_sep_count > 0 then
    if dec_sep_count > 1 then
      Except.error ("You have more than one decimal separator (\"" ++ dec_sep ++
        "\")  in your number \"" ++ value ++ "\"")
    else if th_sep_count > 0 ∧ dec_sep_count > 0 then
      let dec_pos := (firstOcc dec_sep.data value.data).getD 0
      if (occIdxs th_sep.data value.data).all (fun th_pos => decide (th_pos ≤ dec_pos)) then
        parsed
      else
        Except.error "The decimal separator is to the left of the thousand separator"
    else parsed
  else parsed

end FloatConverter

/-! ## IntConverter and lformat

`IntConverter.as_string` calls `lformat('%d', value)`, i.e.
`locale.format('%d', value, grouping=True)` — a host-library call.  It is
modelled here from the documented behaviour of Python's locale module:
render the integer in decimal and insert the LC_NUMERIC thousands
separator according to the LC_NUMERIC grouping list, where a grouping
entry of 0 repeats the previous group size indefinitely, CHAR_MAX (127)
stops all further grouping, and an exhausted list leaves the remaining
digits ungrouped. -/

structure NumericLocale where
  grouping : List Nat
  thousands_sep : String

/-- Split a digit string from the right into the groups dictated by the
LC_NUMERIC grouping list (see module comment above).  `prev` is the last
group size actually applied, used when a grouping entry of 0 asks for it
to be repeated. -/
def localeGroupAux : Nat → List Char → List Nat → Option Nat → List (List Char)
  | 0, _, _, _ => []
  | fuel + 1, l, grouping, prev =>
    if l = [] then []
    else
      match grouping with
      | [] => [l]
      | g :: gs =>
        if g = 127 then [l]
        else
          match g, prev with
          | 0, some (p + 1) =>
            localeGroupAux fuel (restOf (p + 1) l) (0 :: gs) (some (p + 1)) ++
              [chunkOf (p + 1) l]
          | 0, _ => [l]
          | g' + 1, _ =>
            localeGroupAux fuel (restOf (g' + 1) l) gs (some (g' + 1)) ++
              [chunkOf (g' + 1) l]

/-- See the section comment: each grouping step consumes at least one
digit, so the counter `l.length` never runs out. -/
def localeGroup (l : List Char) (grouping : List Nat) (prev : Option Nat) :
    List (List Char) :=
  localeGroupAux l.length l grouping prev

theorem localeGroupAux_succ (fuel : Nat) (l : List Char) (grouping : List Nat)
    (prev : Option Nat) :
    localeGroupAux (fuel + 1) l grouping prev =
      (if l = [] then []
       else
        match grouping with
        | [] => [l]
        | g :: gs =>
          if g = 127 then [l]
          else
            match g, prev with
            | 0, some (p + 1) =>
              localeGroupAux fuel (restOf (p + 1) l) (0 :: gs) (some (p + 1)) ++
                [chunkOf (p + 1) l]
            | 0, _ => [l]
            | g' + 1, _ =>
              localeGroupAux fuel (restOf (g' + 1) l) gs (some (g' + 1)) ++
                [chunkOf (g' + 1) l]) := rfl

theorem localeGroupAux_flatten :
    ∀ (fuel : Nat) (l : List Char) (grouping : List Nat) (prev : Option Nat),
      l.length ≤ fuel → (localeGroupAux fuel l grouping prev).flatten = l := by
  intro fuel
  induction fuel with
  | zero =>
    intro l grouping prev hl
    have hnil : l = [] := List.length_eq_zero.mp (by omega)
    subst hnil
    simp [localeGroupAux]
  | succ n ih =>
    intro l grouping prev hl
    rw [localeGroupAux_succ]
    split
    · rename_i h
      simp [h]
    · rename_i h
      have hlt : ∀ g : Nat, (restOf g l).length ≤ n := fun g => by
        have := restOf_length_lt g h
        omega
      split
      · simp
      · split
        · simp
        · split
          · simp only [List.flatten_append, List.flatten_cons, List.flatten_nil,
              List.append_nil, ih _ _ _ (hlt _)]
            exact restOf_append_chunkOf _ _
          · simp
          · simp only [List.flatten_append, List.flatten_cons, List.flatten_nil,
              List.append_nil, ih _ _ _ (hlt _)]
            exact restOf_append_chunkOf _ _

theorem localeGroup_flatten (l : List Char) (grouping : List Nat)
    (prev : Option Nat) : (localeGroup l grouping prev).flatten = l :=
  localeGroupAux_flatten l.length l grouping prev le_rfl

/-- Python `str(n)` for an integer: a minus sign for negative values,
then the decimal digits. -/
def intRepr (n : Int) : List Char :=
  (if n < 0 then ['-'] else []) ++ natRepr n.natAbs

/-- `lformat('%d', n)` = `locale.format('%d', n, grouping=True)`:
decimal rendering with locale grouping applied (host-library behaviour,
see the section comment). -/
def lformat_d (loc : NumericLocale) (n : Int) : String :=
  String.mk ((if n < 0 then ['-'] else []) ++
    sepJoin loc.thousands_sep.data (localeGroup (natRepr n.natAbs) loc.grouping none))

namespace IntConverter

/-- `IntConverter.as_string` with the default format '%d'. -/
def as_string (loc : NumericLocale) (value : Int) : String :=
  lformat_d loc value

/-- `IntConverter.from_string`: `int(value)` wrapped into the
ValidationError "This field requires an integer number" on failure. -/
def from_string (value : String) : Except String Int :=
  match pyInt value.data with
  | some n => Except.ok n
  | none => Except.error "This field requires an integer number"

end IntConverter

/-! ## The converter registry

`ConverterRegistry` keeps a dict from Python type objects to converter
instances.  Python runtime values and type objects are embedded as
`PyValue` / `PyType`; a converter's optional `as_string` / `from_string`
are optional Lean functions whose results are `CallResult`s, separating
the outcome kinds the source can produce: a normal return, a raised
ValidationError, a failed `assert` (AssertionError), and a failed dict
lookup (KeyError). -/

inductive PyType where
  | strT
  | intT
  | boolT
  | floatT
  | dateT
  | objectT
deriving DecidableEq

inductive PyValue where
  | vstr : String → PyValue
  | vint : Int → PyValue
  | vbool : Bool → PyValue
  | vfloat : ℚ → PyValue
  | vdate : Int → Int → Int → PyValue
  | vtype : PyType → PyValue
  | vobject : PyValue
deriving DecidableEq

/-- Python `isinstance(v, t)` for the embedded values: every value is an
instance of `object`, and `bool` is a subclass of `int`. -/
def isinstance (v : PyValue) (t : PyType) : Bool :=
  match t with
  | .objectT => true
  | .strT => match v with | .vstr _ => true | _ => false
  | .intT => match v with | .vint _ => true | .vbool _ => true | _ => false
  | .boolT => match v with | .vbool _ => true | _ => false
  | .floatT => match v with | .vfloat _ => true | _ => false
  | .dateT => match v with | .vdate _ _ _ => true | _ => false

/-- Outcome of a registry call. -/
inductive CallResult where
  | ok : PyValue → CallResult
  | validationError : String → CallResult
  | assertionError : String → CallResult
  | keyError : CallResult

/-- A converter instance as the registry sees it: its `type` attribute
and its optional `as_string` / `from_string` methods (None for the
missing ones, as in ObjectConverter). -/
structure PyConverter where
  type : PyType
  as_string : Option (PyValue → List PyValue → CallResult)
  from_string : Option (PyValue → List PyValue → CallResult)

/-- Indexing `self._converters[converter_type]`: the registry dict keeps
at most one converter per type (each `add` overwrites), so it is embedded
as an association list probed in order. -/
def lookupConv : List (PyType × PyConverter) → PyType → Option PyConverter
  | [], _ => none
  | (t, c) :: r, k => if t = k then some c else lookupConv r k

namespace ConverterRegistry

/-- `ConverterRegistry.as_string`: index the dict (KeyError when the type
is unregistered), pass the data through when the converter has no
`as_string`, otherwise assert `isinstance(data, c.type)` and delegate.
The source interpolates the offending data and types into the assert
message; the message text is abbreviated here. -/
def as_string (reg : List (PyType × PyConverter)) (converter_type : PyType)
    (data : PyValue) (args : List PyValue) : CallResult :=
  match lookupConv reg converter_type with
  | none => CallResult.keyError
  | some c =>
    match c.as_string with
    | none => CallResult.ok data
    | some f =>
      if isinstance data c.type then f data args
      else CallResult.assertionError "data must be an instance of the converter type"

/-- `ConverterRegistry.from_string`: index the dict (KeyError when the
type is unregistered), pass the data through when the converter has no
`from_string`, otherwise delegate — with no isinstance check. -/
def from_string (reg : List (PyType × PyConverter)) (converter_type : PyType)
    (data : PyValue) (args : List PyValue) : CallResult :=
  match lookupConv reg converter_type with
  | none => CallResult.keyError
  | some c =>
    match c.from_string with
    | none => CallResult.ok data
    | some f => f data args

end ConverterRegistry

namespace BoolConverter

/-- `BoolConverter.as_string = lambda s, value, format=None: str` — the
body returns the builtin `str` type object itself (embedded as
`PyValue.vtype PyType.strT`), not a rendering of `value`. -/
def as_string (value : PyValue) (format : Option PyValue) : PyValue :=
  PyValue.vtype PyType.strT

end BoolConverter

/-! ## format_price

Embedding of the standalone monetary formatter.  The locale snapshot
carries the `locale.localeconv()` monetary entries format_price reads
(with the precedes/sep-by-space ints as booleans) together with whether
`locale.getlocale(LC_MONETARY)[0] == 'pt_BR'`, which triggers the
hard-coded glibc workaround.  The numeric value is an exact rational;
`value % 1 != 0` holds exactly when the rational is not an integer
(denominator ≠ 1), and `int(abs(value))` is `⌊|value|⌋`. -/

structure MonetaryConv where
  mon_grouping : List Nat
  mon_thousands_sep : String
  mon_decimal_point : String
  p_cs_precedes : Bool
  n_cs_precedes : Bool
  currency_symbol : String
  frac_digits : Nat
  p_sep_by_space : Bool
  n_sep_by_space : Bool
  positive_sign : String
  negative_sign : String
  locale_is_pt_BR : Bool

/-- The sign-dependent parameter selection of format_price: the triple
(cs_precedes, sep_by_space, sign) comes from the positive set when
`value > 0` and from the negative set otherwise. -/
def signParams (p_cs n_cs : Bool) (p_sbs n_sbs : Bool)
    (p_sign n_sign : String) (value : ℚ) : Bool × Bool × String :=
  if 0 < value then (p_cs, p_sbs, p_sign) else (n_cs, n_sbs, n_sign)

/-- The grouping while-loop of format_price.  `group` is the group size
in use; `groups` holds the not-yet-consumed sizes of mon_grouping in
their original order (the source reverses the list and pops from the
end).  Each pass takes `intpart[-group:]` as the next (leftmost-built)
chunk, then pops the next size, a popped 0 leaving `group` unchanged. -/
def groupLoopAux : Nat → List Char → List Nat → Nat → List (List Char)
  | 0, _, _, _ => []
  | fuel + 1, l, groups, group =>
    if l = [] then []
    else
      match groups with
      | [] => groupLoopAux fuel (restOf group l) [] group ++ [chunkOf group l]
      | last :: gs =>
        groupLoopAux fuel (restOf group l) gs (if last ≠ 0 then last else group) ++
          [chunkOf group l]

/-- See the section comment on the counter idiom: each pass consumes at
least one digit, so `l.length` passes never run out. -/
def groupLoop (l : List Char) (groups : List Nat) (group : Nat) :
    List (List Char) :=
  groupLoopAux l.length l groups group

theorem groupLoopAux_succ (fuel : Nat) (l : List Char) (groups : List Nat)
    (group : Nat) :
    groupLoopAux (fuel + 1) l groups group =
      (if l = [] then []
       else
        match groups with
        | [] => groupLoopAux fuel (restOf group l) [] group ++ [chunkOf group l]
        | last :: gs =>
          groupLoopAux fuel (restOf group l) gs
            (if last ≠ 0 then last else group) ++ [chunkOf group l]) := rfl

/-- Grouping of the integer-part digits by format_price: the first
mon_grouping entry (3 when the list is empty) seeds `group`, the rest
feed the loop. -/
def groupDigits (mon_grouping : List Nat) (digits : List Char) :
    List (List Char) :=
  match mon_grouping with
  | [] => groupLoop digits [] 3
  | g :: gs => groupLoop digits gs g

/-- Python `'%.<f>f' % v`: fixed-point rendering with `f` fractional
digits.  Python rounds the binary double (ties to even); here the exact
rational is rounded (Mathlib's `round`, ties up) — the difference only
shows on values that are floating-point artefacts, which the claims do
not exercise. -/
def pyFixed (f : Nat) (v : ℚ) : List Char :=
  let scaled : Nat := (round (|v| * (10 : ℚ) ^ f)).toNat
  let sign : List Char := if v < 0 then ['-'] else []
  if f = 0 then sign ++ natRepr scaled
  else
    sign ++ natRepr (scaled / 10 ^ f) ++ ['.'] ++
      List.replicate (f - (natRepr (scaled % 10 ^ f)).length) '0' ++
      natRepr (scaled % 10 ^ f)

/-- `format_price(value, symbol)` from src/kiwi/datatypes.py.  The
decimal part is `('%.<frac_digits>f' % value)[-frac_digits:]`, i.e.
`chunkOf frac_digits (pyFixed frac_digits value)`. -/
def format_price (opt : MonetaryConv) (value : ℚ) (symbol : Bool) : String :=
  let p_cs_precedes := if opt.locale_is_pt_BR then true else opt.p_cs_precedes
  let n_cs_precedes := if opt.locale_is_pt_BR then true else opt.n_cs_precedes
  let p_sep_by_space := if opt.locale_is_pt_BR then false else opt.p_sep_by_space
  let n_sep_by_space := if opt.locale_is_pt_BR then false else opt.n_sep_by_space
  let frac_digits := if opt.frac_digits = 127 then 2 else opt.frac_digits
  let params := signParams p_cs_precedes n_cs_precedes p_sep_by_space
    n_sep_by_space opt.positive_sign opt.negative_sign value
  let cs_precedes := params.1
  let sep_by_space := params.2.1
  let sign := params.2.2
  let intpart := natRepr (Int.toNat ⌊|value|⌋)
  let intparts := groupDigits opt.mon_grouping intpart
  let retval := sign ++ String.mk (sepJoin opt.mon_thousands_sep.data intparts)
  let retval2 :=
    if value.den ≠ 1 then
      retval ++ opt.mon_decimal_point ++
        String.mk (chunkOf frac_digits (pyFixed frac_digits value))
    else retval
  if opt.currency_symbol ≠ "" ∧ symbol = true then
    let space := if sep_by_space then " " else ""
    if cs_precedes then opt.currency_symbol ++ space ++ retval2
    else retval2 ++ space ++ opt.currency_symbol
  else retval2

/-! ## The spec's description of the grouping algorithm

For the refinement part of the grouping claim, a second set of
definitions follows the spec's words: "consume group sizes right-to-left"
(i.e. from the right end of the digit string, sizes taken in list order),
"0 meaning repeat the previous size", "once the pattern is exhausted, the
last non-zero group size is reused for all remaining digits". -/

/-- Follows the spec's words: the grouping pattern with each 0 replaced
by the previous (already substituted) size. -/
def specSubZeros : List Nat → Nat → List Nat
  | [], _ => []
  | g :: gs, prev =>
    (if g = 0 then prev else g) :: specSubZeros gs (if g = 0 then prev else g)

/-- Follows the spec's words: the last non-zero group size of the
pattern (`d` when there is none). -/
def specLastNonZero : List Nat → Nat → Nat
  | [], d => d
  | g :: gs, d => specLastNonZero gs (if g = 0 then d else g)

/-- Follows the spec's words: split the digit string from the right,
consuming the group sizes in order, and once they are exhausted keep
splitting with `lastNZ`. -/
def specSplitAux : Nat → List Nat → Nat → List Char → List (List Char)
  | 0, _, _, _ => []
  | fuel + 1, sizes, lastNZ, l =>
    if l = [] then []
    else
      match sizes with
      | [] => specSplitAux fuel [] lastNZ (restOf lastNZ l) ++ [chunkOf lastNZ l]
      | s :: ss => specSplitAux fuel ss lastNZ (restOf s l) ++ [chunkOf s l]

def specSplit (sizes : List Nat) (lastNZ : Nat) (l : List Char) :
    List (List Char) :=
  specSplitAux l.length sizes lastNZ l

/-- The spec-level grouping of a digit string by a grouping pattern. -/
def specGroupDigits (pattern : List Nat) (digits : List Char) :
    List (List Char) :=
  specSplit (specSubZeros pattern 0) (specLastNonZero pattern 0) digits

theorem specSplitAux_succ (fuel : Nat) (sizes : List Nat) (lastNZ : Nat)
    (l : List Char) :
    specSplitAux (fuel + 1) sizes lastNZ l =
      (if l = [] then []
       else
        match sizes with
        | [] => specSplitAux fuel [] lastNZ (restOf lastNZ l) ++ [chunkOf lastNZ l]
        | s :: ss => specSplitAux fuel ss lastNZ (restOf s l) ++ [chunkOf s l]) := rfl

theorem specSplitAux_singleton (fuel lnz : Nat) (l : List Char) :
    specSplitAux fuel [lnz] lnz l = specSplitAux fuel [] lnz l := by
  cases fuel <;> rfl

theorem groupLoopAux_eq_specSplitAux :
    ∀ (fuel : Nat) (l : List Char) (gs : List Nat) (cur : Nat),
      l.length ≤ fuel → cur ≠ 0 →
      groupLoopAux fuel l gs cur =
        specSplitAux fuel (cur :: specSubZeros gs cur) (specLastNonZero gs cur) l := by
  intro fuel
  induction fuel with
  | zero =>
    intro l gs cur hl _
    rfl
  | succ n ih =>
    intro l gs cur hl hcur
    by_cases h : l = []
    · subst h
      rfl
    · have hlen : ∀ g : Nat, (restOf g l).length ≤ n := fun g => by
        have := restOf_length_lt g h
        omega
      rw [groupLoopAux_succ, specSplitAux_succ, if_neg h, if_neg h]
      cases gs with
      | nil =>
        simp only [specSubZeros, specLastNonZero]
        rw [ih _ _ _ (hlen cur) hcur, specSubZeros, specLastNonZero,
          specSplitAux_singleton]
      | cons g2 rest =>
        by_cases hg2 : g2 = 0
        · subst hg2
          simp only [specSubZeros, specLastNonZero, ne_eq, not_true_eq_false,
            if_false, if_true, reduceIte]
          rw [ih _ _ _ (hlen cur) hcur]
        · have hif : (if g2 ≠ 0 then g2 else cur) = g2 := if_pos hg2
          have hif2 : (if g2 = 0 then cur else g2) = g2 := if_neg hg2
          simp only [specSubZeros, specLastNonZero, hif, hif2]
          rw [ih _ _ _ (hlen cur) hg2]

/-- The format_price grouping loop refines the spec's description of the
grouping algorithm, for any pattern whose leading size is non-zero (a
leading 0 has no "previous size" to repeat, so the spec's wording does
not apply to it). -/
theorem groupDigits_eq_specGroupDigits (g : Nat) (gs : List Nat)
    (hg : g ≠ 0) (digits : List Char) :
    groupDigits (g :: gs) digits = specGroupDigits (g :: gs) digits := by
  have h := groupLoopAux_eq_specSplitAux digits.length digits gs g le_rfl hg
  rw [groupDigits, specGroupDigits, specSubZeros, specLastNonZero, if_neg hg]
  exact h

/-! ## The claims -/

/-- C1: under the locale snapshot mon_grouping [3,0], mon_thousands_sep
",", mon_decimal_point ".", frac_digits 2, currency_symbol "$",
p_cs_precedes true, p_sep_by_space false, `format_price(1234.5, symbol=True)`
returns "$1,234.50"; and in general the grouping of the integer-part
digits consumes the group sizes in order (0 repeating the previous size)
and, once the pattern is exhausted, reuses the last non-zero group size
for all remaining digits — stated as the equality of the format_price
grouping with the spec-level grouping, for patterns with a non-zero
leading size. -/
theorem C1_format_price_example_and_grouping :
    format_price
        ⟨[3, 0], ",", ".", true, true, "$", 2, false, false, "", "-", false⟩
        ((2469 : ℚ) / 2) true = "$1,234.50" ∧
    ∀ (g : Nat) (gs : List Nat) (digits : List Char), g ≠ 0 →
      groupDigits (g :: gs) digits = specGroupDigits (g :: gs) digits :=
  ⟨by with_unfolding_all rfl,
   fun g gs digits hg => groupDigits_eq_specGroupDigits g gs hg digits⟩

/-- C1 witness: the grouping refinement evaluated at the pattern [3,0]
and the digit string "1234567". -/
theorem C1_format_price_example_and_grouping_witness :
    (3 : Nat) ≠ 0 ∧
    groupDigits [3, 0] "1234567".data = specGroupDigits [3, 0] "1234567".data :=
  ⟨by decide,
   C1_format_price_example_and_grouping.2 3 [0] "1234567".data (by decide)⟩

/-- C2: whenever the locale decimal separator occurs more than once in
the input, FloatConverter.from_string raises a ValidationError and never
returns a number. -/
theorem C2_float_rejects_multiple_decimal_seps (conv : LocaleConv)
    (value : String)
    (h : 2 ≤ countOcc conv.decimal_point.data value.data) :
    FloatConverter.from_string conv value =
      Except.error ("You have more than one decimal separator (\"" ++
        conv.decimal_point ++ "\")  in your number \"" ++ value ++ "\"") := by
  simp only [FloatConverter.from_string]
  rw [if_pos (Or.inr (show countOcc conv.decimal_point.data value.data > 0 by
        omega)),
      if_pos (show countOcc conv.decimal_point.data value.data > 1 by omega)]

/-- C2 witness: "1.2.3" with decimal separator "." (and the empty
thousands separator of the C locale). -/
theorem C2_float_rejects_multiple_decimal_seps_witness :
    2 ≤ countOcc ("." : String).data ("1.2.3" : String).data ∧
    FloatConverter.from_string ⟨"", "."⟩ "1.2.3" =
      Except.error ("You have more than one decimal separator (\"" ++
        ("." : String) ++ "\")  in your number \"" ++ ("1.2.3" : String) ++ "\"") :=
  ⟨by decide, C2_float_rejects_multiple_decimal_seps ⟨"", "."⟩ "1.2.3" (by decide)⟩

/-- C3: when the input has exactly one decimal-separator occurrence, at
position d, and some thousands-separator occurrence lies strictly to the
right of d, FloatConverter.from_string raises the separator-order
ValidationError (a thousands separator never follows the decimal point in
an accepted input). -/
theorem C3_float_rejects_misordered_seps (conv : LocaleConv) (value : String)
    (d i : Nat) (hth : conv.thousands_sep ≠ "")
    (hdec1 : countOcc conv.decimal_point.data value.data = 1)
    (hfst : firstOcc conv.decimal_point.data value.data = some d)
    (hmem : i ∈ occIdxs conv.thousands_sep.data value.data)
    (hlt : d < i) :
    FloatConverter.from_string conv value =
      Except.error "The decimal separator is to the left of the thousand separator" := by
  have hthc : 0 < countOcc conv.thousands_sep.data value.data :=
    countOcc_pos_of_mem_occIdxs hmem
  simp only [FloatConverter.from_string]
  rw [if_neg hth,
      if_pos (Or.inl (show countOcc conv.thousands_sep.data value.data > 0 from
        hthc)),
      if_neg (show ¬ countOcc conv.decimal_point.data value.data > 1 by omega),
      if_pos (show countOcc conv.thousands_sep.data value.data > 0 ∧
        countOcc conv.decimal_point.data value.data > 0 from ⟨hthc, by omega⟩),
      hfst]
  rw [if_neg (show ¬ ((occIdxs conv.thousands_sep.data value.data).all
      (fun th_pos => decide (th_pos ≤ (some d).getD 0)) = true) from ?_)]
  intro hall
  have := List.all_eq_true.mp hall i hmem
  simp only [Option.getD_some, decide_eq_true_eq] at this
  omega

/-- C3 witness: "1.234,56" with thousands separator "," and decimal
separator ".": the decimal point at index 1 is left of the "," at
index 5. -/
theorem C3_float_rejects_misordered_seps_witness :
    (("," : String) ≠ "" ∧
     countOcc ("." : String).data ("1.234,56" : String).data = 1 ∧
     firstOcc ("." : String).data ("1.234,56" : String).data = some 1 ∧
     5 ∈ occIdxs ("," : String).data ("1.234,56" : String).data ∧ 1 < 5) ∧
    FloatConverter.from_string ⟨",", "."⟩ "1.234,56" =
      Except.error "The decimal separator is to the left of the thousand separator" :=
  ⟨⟨by decide, by decide, by decide, by decide, by decide⟩,
   C3_float_rejects_misordered_seps ⟨",", "."⟩ "1.234,56" 1 5 (by decide)
     (by decide) (by decide) (by decide) (by decide)⟩

/-- C4: on inputs that pass the separator checks (at most one decimal
separator, and — when a decimal separator is present at all — no
thousands separator to its right, the source's order loop only running
in that case), from_string removes every (effective)
thousands-separator occurrence, turns the decimal separator into "."
and parses the result with float(); in particular "1,234.56" with
separators ","/"." yields 1234.56, "1,234" (no decimal part) yields
1234, and a residue that float() rejects raises the ValidationError
"This field requires a number". -/
theorem C4_float_accepts_grouped_input :
    (∀ (conv : LocaleConv) (value : String),
        countOcc conv.decimal_point.data value.data ≤ 1 →
        (countOcc conv.decimal_point.data value.data = 0 ∨
          ∀ i ∈ occIdxs
              (if conv.thousands_sep = "" then "." else conv.thousands_sep).data
              value.data,
            i ≤ (firstOcc conv.decimal_point.data value.data).getD 0) →
        FloatConverter.from_string conv value =
          FloatConverter.cleanAndParse
            (if conv.thousands_sep = "" then "." else conv.thousands_sep)
            conv.decimal_point value) ∧
    FloatConverter.from_string ⟨",", "."⟩ "1,234.56" =
      Except.ok ((30864 : ℚ) / 25) ∧
    FloatConverter.from_string ⟨",", "."⟩ "1,234" = Except.ok (1234 : ℚ) ∧
    FloatConverter.from_string ⟨",", "."⟩ "1,2x3" =
      Except.error "This field requires a number" := by
  refine ⟨?_, by with_unfolding_all rfl, by with_unfolding_all rfl,
    by with_unfolding_all rfl⟩
  intro conv value h1 h2
  simp only [FloatConverter.from_string]
  by_cases hA : countOcc
      (if conv.thousands_sep = "" then "." else conv.thousands_sep).data
      value.data > 0 ∨ countOcc conv.decimal_point.data value.data > 0
  · rw [if_pos hA,
      if_neg (show ¬ countOcc conv.decimal_point.data value.data > 1 by omega)]
    by_cases hB : countOcc
        (if conv.thousands_sep = "" then "." else conv.thousands_sep).data
        value.data > 0 ∧ countOcc conv.decimal_point.data value.data > 0
    · rcases h2 with h0 | hord
      · exact absurd hB.2 (by omega)
      · rw [if_pos hB,
          if_pos (List.all_eq_true.mpr (fun i hi => decide_eq_true (hord i hi)))]
    · rw [if_neg hB]
  · rw [if_neg hA]

/-- C4 witness: the separator checks pass on "1,234.56" (decimal
separator present, every "," left of it) and on "1,234" (no decimal
separator, so the order check does not apply), and from_string equals
the clean-and-parse pipeline at both. -/
theorem C4_float_accepts_grouped_input_witness :
    (countOcc ("." : String).data ("1,234.56" : String).data ≤ 1 ∧
     ∀ i ∈ occIdxs ("," : String).data ("1,234.56" : String).data,
       i ≤ (firstOcc ("." : String).data ("1,234.56" : String).data).getD 0) ∧
    FloatConverter.from_string ⟨",", "."⟩ "1,234.56" =
      FloatConverter.cleanAndParse "," "." "1,234.56" ∧
    countOcc ("." : String).data ("1,234" : String).data = 0 ∧
    FloatConverter.from_string ⟨",", "."⟩ "1,234" =
      FloatConverter.cleanAndParse "," "." "1,234" :=
  ⟨⟨by decide, by decide⟩,
   C4_float_accepts_grouped_input.1 ⟨",", "."⟩ "1,234.56" (by decide)
     (Or.inr (by decide)),
   by decide,
   C4_float_accepts_grouped_input.1 ⟨",", "."⟩ "1,234" (by decide)
     (Or.inl (by decide))⟩

/-- C5: BoolConverter.as_string returns the builtin `str` type object
itself for every value and format argument — never a rendered text such
as "True" or "False" — and its result does not depend on the value. -/
theorem C5_bool_as_string_returns_function :
    (∀ (value : PyValue) (format : Option PyValue),
        BoolConverter.as_string value format = PyValue.vtype PyType.strT) ∧
    (∀ (value : PyValue) (format : Option PyValue) (s : String),
        BoolConverter.as_string value format ≠ PyValue.vstr s) ∧
    (∀ (v1 v2 : PyValue) (f1 f2 : Option PyValue),
        BoolConverter.as_string v1 f1 = BoolConverter.as_string v2 f2) :=
  ⟨fun _ _ => rfl, fun _ _ _ h => PyValue.noConfusion h, fun _ _ _ _ => rfl⟩

/-- C9: with an empty locale thousands separator (as in the C locale),
from_string behaves exactly as if the thousands separator were ".", so
every "." in the input is stripped as a thousands separator: "1.5" is
accepted and parses to 15, not to 1.5. -/
theorem C9_float_empty_thousands_sep_defaults_to_dot :
    (∀ (dec value : String),
        FloatConverter.from_string ⟨"", dec⟩ value =
          FloatConverter.from_string ⟨".", dec⟩ value) ∧
    FloatConverter.from_string ⟨"", "."⟩ "1.5" = Except.ok (15 : ℚ) ∧
    FloatConverter.from_string ⟨"", "."⟩ "1.5" ≠ Except.ok ((3 : ℚ) / 2) := by
  have hok : FloatConverter.from_string ⟨"", "."⟩ "1.5" = Except.ok (15 : ℚ) := by
    with_unfolding_all rfl
  refine ⟨fun dec value => rfl, hok, ?_⟩
  rw [hok]
  intro hc
  rw [Except.ok.injEq] at hc
  norm_num at hc

/-- C6: ConverterRegistry.as_string on a registered kind: when the
converter defines no as_string the value passes through unchanged with no
kind check; when it does, a value whose runtime kind fails
isinstance(data, c.type) hits the assert (an AssertionError, a result
kind distinct from the ValidationError kind), and a matching value is
delegated to the converter's as_string. -/
theorem C6_registry_as_string_kind_check
    (reg : List (PyType × PyConverter)) (t : PyType) (c : PyConverter)
    (data : PyValue) (args : List PyValue)
    (hc : lookupConv reg t = some c) :
    (c.as_string = none →
      ConverterRegistry.as_string reg t data args = CallResult.ok data) ∧
    (∀ f, c.as_string = some f → isinstance data c.type = false →
      (ConverterRegistry.as_string reg t data args =
        CallResult.assertionError "data must be an instance of the converter type" ∧
       ∀ s, ConverterRegistry.as_string reg t data args ≠
        CallResult.validationError s)) ∧
    (∀ f, c.as_string = some f → isinstance data c.type = true →
      ConverterRegistry.as_string reg t data args = f data args) := by
  refine ⟨fun hn => ?_, fun f hf hiso => ?_, fun f hf hiso => ?_⟩
  · simp [ConverterRegistry.as_string, hc, hn]
  · have hres : ConverterRegistry.as_string reg t data args =
        CallResult.assertionError "data must be an instance of the converter type" := by
      simp [ConverterRegistry.as_string, hc, hf, hiso]
    exact ⟨hres, fun s => by rw [hres]; exact fun h => CallResult.noConfusion h⟩
  · simp [ConverterRegistry.as_string, hc, hf, hiso]

/-- C6 witness: a one-entry registry whose int converter defines
as_string; a string value fails the kind check and yields the
AssertionError result. -/
theorem C6_registry_as_string_kind_check_witness :
    (lookupConv [(PyType.intT,
        ⟨PyType.intT, some (fun d _ => CallResult.ok d), none⟩)] PyType.intT =
      some (⟨PyType.intT, some (fun d _ => CallResult.ok d), none⟩ : PyConverter) ∧
     isinstance (PyValue.vstr "x") PyType.intT = false) ∧
    ConverterRegistry.as_string
        [(PyType.intT, ⟨PyType.intT, some (fun d _ => CallResult.ok d), none⟩)]
        PyType.intT (PyValue.vstr "x") [] =
      CallResult.assertionError "data must be an instance of the converter type" :=
  ⟨⟨rfl, rfl⟩,
   ((C6_registry_as_string_kind_check
      [(PyType.intT, ⟨PyType.intT, some (fun d _ => CallResult.ok d), none⟩)]
      PyType.intT ⟨PyType.intT, some (fun d _ => CallResult.ok d), none⟩
      (PyValue.vstr "x") [] rfl).2.1
      (fun d _ => CallResult.ok d) rfl rfl).1⟩

/-- C7 counterexample: under a locale with currency symbol "$" preceding
the value, format_price(0) is "$-0" — the negative sign string "-" is
selected (the value 0 uses the negative set) but the output is not
prefixed with it, the currency symbol coming first. -/
theorem C7_counterexample_symbol_precedes_sign :
    format_price
        ⟨[3, 0], ",", ".", true, true, "$", 2, false, false, "", "-", false⟩
        0 true = "$-0" ∧
    leadsWith ("-" : String).data ("$-0" : String).data = false :=
  ⟨by with_unfolding_all rfl, by decide⟩

/-- C7 (amended): format_price selects the (cs_precedes, sep_by_space,
sign) triple from the positive set exactly when value > 0 and from the
negative set otherwise — the value zero included; consequently
format_price(0) begins with the locale's negative sign string whenever
the currency symbol is empty or not requested (with a preceding currency
symbol, the symbol comes before the sign). -/
theorem C7_sign_selection :
    (∀ (p_cs n_cs p_sbs n_sbs : Bool) (p_sign n_sign : String) (v : ℚ),
        0 < v →
        signParams p_cs n_cs p_sbs n_sbs p_sign n_sign v =
          (p_cs, p_sbs, p_sign)) ∧
    (∀ (p_cs n_cs p_sbs n_sbs : Bool) (p_sign n_sign : String) (v : ℚ),
        ¬ 0 < v →
        signParams p_cs n_cs p_sbs n_sbs p_sign n_sign v =
          (n_cs, n_sbs, n_sign)) ∧
    (∀ (opt : MonetaryConv) (symbol : Bool), opt.currency_symbol = "" →
        ∃ rest, format_price opt 0 symbol = opt.negative_sign ++ rest) ∧
    (∀ opt : MonetaryConv,
        ∃ rest, format_price opt 0 false = opt.negative_sign ++ rest) := by
  have hsel : ∀ (p_cs n_cs p_sbs n_sbs : Bool) (p_sign n_sign : String),
      signParams p_cs n_cs p_sbs n_sbs p_sign n_sign 0 =
        (n_cs, n_sbs, n_sign) := fun _ _ _ _ _ _ => by
    simp [signParams]
  have hzero : ∀ (opt : MonetaryConv) (symbol : Bool),
      ¬ (opt.currency_symbol ≠ "" ∧ symbol = true) →
      ∃ rest, format_price opt 0 symbol = opt.negative_sign ++ rest := by
    intro opt symbol hsym
    simp only [format_price, hsel, ne_eq]
    rw [if_neg (show ¬ ¬ (0 : ℚ).den = 1 by simp [Rat.den_ofNat])]
    rw [if_neg (by simpa using hsym)]
    exact ⟨_, rfl⟩
  refine ⟨fun p_cs n_cs p_sbs n_sbs p_sign n_sign v hv => by
      simp [signParams, hv],
    fun p_cs n_cs p_sbs n_sbs p_sign n_sign v hv => by
      simp [signParams, hv],
    fun opt symbol h => hzero opt symbol (fun hc => hc.1 h),
    fun opt => hzero opt false (fun hc => Bool.false_ne_true hc.2)⟩

/-- C7 witness: the sign selection evaluated at value 1 (positive set)
and value 0 with an empty currency symbol (negative sign prefix). -/
theorem C7_sign_selection_witness :
    (0 < (1 : ℚ) ∧
      signParams true false true false "+" "-" 1 = (true, true, "+")) ∧
    ((⟨[3], ",", ".", true, true, "", 2, false, false, "", "-",
        false⟩ : MonetaryConv).currency_symbol = "" ∧
      ∃ rest, format_price
          ⟨[3], ",", ".", true, true, "", 2, false, false, "", "-", false⟩
          0 true = ("-" : String) ++ rest) :=
  ⟨⟨by norm_num, C7_sign_selection.1 true false true false "+" "-" 1 (by norm_num)⟩,
   ⟨rfl, C7_sign_selection.2.2.1
      ⟨[3], ",", ".", true, true, "", 2, false, false, "", "-", false⟩ true rfl⟩⟩

/-- C8: integer round trip: under a locale whose thousands separator is
the empty string (so the grouped '%d' rendering introduces no separator
into the text), IntConverter.from_string (IntConverter.as_string n)
returns n for every integer n. -/
theorem C8_int_round_trip (loc : NumericLocale) (n : Int)
    (h : loc.thousands_sep = "") :
    IntConverter.from_string (IntConverter.as_string loc n) = Except.ok n := by
  unfold IntConverter.as_string IntConverter.from_string lformat_d
  rw [h]
  rw [show ("" : String).data = [] from rfl, sepJoin_nil_sep, localeGroup_flatten]
  rw [show (String.mk ((if n < 0 then ['-'] else []) ++ natRepr n.natAbs)).data =
    (if n < 0 then ['-'] else []) ++ natRepr n.natAbs from rfl]
  by_cases hn : n < 0
  · rw [if_pos hn]
    show (match pyInt ('-' :: natRepr n.natAbs) with
      | some m => Except.ok m
      | none => Except.error "This field requires an integer number") = _
    rw [show pyInt ('-' :: natRepr n.natAbs) =
        Option.map (fun m => -(Int.ofNat m)) (digitsRead (natRepr n.natAbs)) by
      simp [pyInt]]
    rw [digitsRead_natRepr]
    simp only [Option.map_some']
    have : -(Int.ofNat n.natAbs) = n := by
      rw [show Int.ofNat n.natAbs = (n.natAbs : Int) from rfl]
      omega
    rw [this]
  · rw [if_neg hn]
    simp only [List.nil_append]
    rcases hrep : natRepr n.natAbs with _ | ⟨c, r⟩
    · exact absurd hrep (natRepr_ne_nil _)
    · have hdig : c.isDigit = true := by
        have := natRepr_all_digits n.natAbs
        rw [hrep, List.all_cons, Bool.and_eq_true] at this
        exact this.1
      have hp : ¬ c = '+' := fun e => by rw [e] at hdig; exact absurd hdig (by decide)
      have hm : ¬ c = '-' := fun e => by rw [e] at hdig; exact absurd hdig (by decide)
      show (match pyInt (c :: r) with
        | some m => Except.ok m
        | none => Except.error "This field requires an integer number") = _
      rw [show pyInt (c :: r) = Option.map Int.ofNat (digitsRead (c :: r)) by
        simp [pyInt, hp, hm]]
      rw [← hrep, digitsRead_natRepr]
      simp only [Option.map_some']
      have : Int.ofNat n.natAbs = n := by
        rw [show Int.ofNat n.natAbs = (n.natAbs : Int) from rfl]
        omega
      rw [this]

/-- C8 witness: the round trip evaluated at the locale ⟨[3], ""⟩ and the
integer -1234567. -/
theorem C8_int_round_trip_witness :
    (⟨[3], ""⟩ : NumericLocale).thousands_sep = "" ∧
    IntConverter.from_string (IntConverter.as_string ⟨[3], ""⟩ (-1234567)) =
      Except.ok (-1234567) :=
  ⟨rfl, C8_int_round_trip ⟨[3], ""⟩ (-1234567) rfl⟩

/-- C10: ConverterRegistry.as_string and from_string index the converter
dict before any None-check or delegation, so an unregistered kind yields
a KeyError — not the validation error and not a pass-through of the
value. -/
theorem C10_registry_unregistered_kind_key_error
    (reg : List (PyType × PyConverter)) (t : PyType) (data : PyValue)
    (args : List PyValue) (h : lookupConv reg t = none) :
    ConverterRegistry.as_string reg t data args = CallResult.keyError ∧
    ConverterRegistry.from_string reg t data args = CallResult.keyError ∧
    (∀ v, (CallResult.keyError : CallResult) ≠ CallResult.ok v) ∧
    (∀ s, (CallResult.keyError : CallResult) ≠ CallResult.validationError s) :=
  ⟨by simp [ConverterRegistry.as_string, h],
   by simp [ConverterRegistry.from_string, h],
   fun v hh => CallResult.noConfusion hh,
   fun s hh => CallResult.noConfusion hh⟩

/-- C10 witness: the empty registry has no converter for the int kind,
and both calls return the KeyError result there. -/
theorem C10_registry_unregistered_kind_key_error_witness :
    lookupConv [] PyType.intT = none ∧
    ConverterRegistry.as_string [] PyType.intT (PyValue.vbool true) [] =
      CallResult.keyError ∧
    ConverterRegistry.from_string [] PyType.intT (PyValue.vbool true) [] =
      CallResult.keyError :=
  ⟨rfl,
   (C10_registry_unregistered_kind_key_error [] PyType.intT
      (PyValue.vbool true) [] rfl).1,
   (C10_registry_unregistered_kind_key_error [] PyType.intT
      (PyValue.vbool true) [] rfl).2.1⟩
